import Mathlib

set_option maxRecDepth 8192
set_option linter.unusedVariables false

/- Shallow embedding of `src/main.py` (Cross-Platform-Action-Agent).

   The Python string primitives the source uses (`in`, `split`, `replace`,
   `lower`, `capitalize`) are embedded as executable functions on `List Char`.
   The fuel arguments are instantiated with the length of the scanned list, which
   always suffices because every recursive call consumes at least one
   character. -/

namespace Agent

/-- Python `pat in s` (substring containment); `"" in s` is `True`. -/
def containsSub (pat : List Char) : List Char → Bool
  | [] => pat.isEmpty
  | c :: cs => pat.isPrefixOf (c :: cs) || containsSub pat cs

/-- Fuel-indexed core of Python `s.split(sep)` for nonempty `sep`: splits on
    non-overlapping occurrences of `sep`, scanning left to right. -/
def pySplitFuel (sep : List Char) : Nat → List Char → List (List Char)
  | 0, s => [s]
  | _ + 1, [] => [[]]
  | fuel + 1, c :: cs =>
    if sep.isPrefixOf (c :: cs) && !sep.isEmpty then
      [] :: pySplitFuel sep fuel ((c :: cs).drop sep.length)
    else
      match pySplitFuel sep fuel cs with
      | [] => [[c]]
      | t :: ts => (c :: t) :: ts

/-- Python `s.split(sep)` for nonempty `sep`. -/
def pySplit (sep s : List Char) : List (List Char) :=
  pySplitFuel sep s.length s

/-- Fuel-indexed core of Python `s.replace(old, new)` for nonempty `old`:
    replaces non-overlapping occurrences, scanning left to right. -/
def replaceFuel (pat rep : List Char) : Nat → List Char → List Char
  | 0, s => s
  | _ + 1, [] => []
  | fuel + 1, c :: cs =>
    if pat.isPrefixOf (c :: cs) && !pat.isEmpty then
      rep ++ replaceFuel pat rep fuel ((c :: cs).drop pat.length)
    else
      c :: replaceFuel pat rep fuel cs

/-- Python `s.replace(old, new)` for nonempty `old`. -/
def pyReplace (s pat rep : List Char) : List Char :=
  replaceFuel pat rep s.length s

/-- Python `s.lower()`: all instructions exercised here are ASCII, where
    Python lowercasing is `Char.toLower` characterwise. -/
def pyLower (s : List Char) : List Char := s.map Char.toLower

/-- Python lowercasing on `String`. -/
def pyLowerStr (s : String) : String := String.mk (pyLower s.data)

/-- Python `s.capitalize()`: first character uppercased, the rest lowercased. -/
def pyCapitalize : List Char → List Char
  | [] => []
  | c :: cs => Char.toUpper c :: cs.map Char.toLower

/-- The `EmailService` enum from `src/main.py`. -/
inductive EmailService where
  | GMAIL
  | OUTLOOK
deriving DecidableEq

/-- The `EmailInstruction` dataclass from `src/main.py`. -/
structure EmailInstruction where
  recipient : String
  subject : String
  body : String
  service : EmailService
deriving DecidableEq

def defaultRecipient : String := "test@example.com"

def defaultSubject : String := "Automated Email"

def defaultBody : String := "This is an automated email sent by the Humaein AI agent."

/-- Recipient extraction of `LLMClient.parse_email_instruction` (lines 41-47),
    applied to the lowercased instruction: `parts = lower.split("to ")`, then
    `parts[1].split(" ")[0]` is accepted when it contains `"@"`. -/
def parsedRecipient (lower : List Char) : String :=
  if containsSub ("to ".data) lower then
    let parts := pySplit ("to ".data) lower
    if 1 < parts.length then
      let rp := (pySplit (" ".data) (parts.getD 1 [])).headD []
      if containsSub ("@".data) rp then String.mk rp else defaultRecipient
    else defaultRecipient
  else defaultRecipient

/-- Subject extraction of `LLMClient.parse_email_instruction` (lines 49-53):
    `lower.split("about ")[1].split(".")[0].capitalize()`. -/
def parsedSubject (lower : List Char) : String :=
  if containsSub ("about ".data) lower then
    let parts := pySplit ("about ".data) lower
    if 1 < parts.length then
      String.mk (pyCapitalize ((pySplit (".".data) (parts.getD 1 [])).headD []))
    else defaultSubject
  else defaultSubject

/-- Service extraction of `LLMClient.parse_email_instruction` (lines 55-59). -/
def parsedService (lower : List Char) : EmailService :=
  if containsSub ("gmail".data) lower then EmailService.GMAIL
  else if containsSub ("outlook".data) lower then EmailService.OUTLOOK
  else EmailService.GMAIL

/-- Embeds `LLMClient.parse_email_instruction` from `src/main.py` (lines 28-61):
    heuristic extraction of recipient / subject / service from the lowercased
    instruction, with fixed defaults for unmatched fields. -/
def parse_email_instruction (instruction : String) : EmailInstruction :=
  let lower := pyLower instruction.data
  { recipient := parsedRecipient lower, subject := parsedSubject lower,
    body := defaultBody, service := parsedService lower }



/-- The action dict from `src/main.py`: kind, selector, optional templated
    value, and a description used for logging.  The planner click
    actions carry no `"value"` key, embedded as `none`. -/
structure Action where
  action : String
  selector : String
  value : Option String := none
  description : String
deriving DecidableEq

/-- The fixed Gmail action sequence from
    `LLMClient.analyze_ui_and_generate_actions` (lines 70-77). -/
def gmailActions : List Action :=
  [ { action := "click", selector := "div[role=\x27button\x27][gh=\x27cm\x27]",
      description := "Click compose button" },
    { action := "fill", selector := "input[aria-label=\x27To\x27]",
      value := some "${recipient}", description := "Fill recipient field" },
    { action := "fill", selector := "input[aria-label=\x27Subject\x27]",
      value := some "${subject}", description := "Fill subject field" },
    { action := "fill", selector := "div[aria-label=\x27Message Body\x27]",
      value := some "${body}", description := "Fill body field" },
    { action := "click", selector := "div[role=\x27button\x27][aria-label*=\x27Send\x27]",
      description := "Click send button" } ]

/-- The fixed Outlook action sequence from
    `LLMClient.analyze_ui_and_generate_actions` (lines 78-85). -/
def outlookActions : List Action :=
  [ { action := "click", selector := "button[aria-label=\x27New message\x27]",
      description := "Click new message button" },
    { action := "fill", selector := "input[aria-label=\x27To\x27]",
      value := some "${recipient}", description := "Fill recipient field" },
    { action := "fill", selector := "input[aria-label=\x27Add a subject\x27]",
      value := some "${subject}", description := "Fill subject field" },
    { action := "fill", selector := "div[aria-label=\x27Message body\x27]",
      value := some "${body}", description := "Fill body field" },
    { action := "click", selector := "button[aria-label=\x27Send\x27]",
      description := "Click send button" } ]

/-- Embeds `LLMClient.analyze_ui_and_generate_actions` from `src/main.py`
    (lines 63-85): returns one of two fixed 5-action sequences depending only
    on whether the lowercased goal contains `"gmail"`; the `html` argument is
    never read. -/
def analyze_ui_and_generate_actions (html goal : String) : List Action :=
  if containsSub ("gmail".data) (pyLower goal.data) then gmailActions
  else outlookActions

/-- The placeholder substitution loop of `WebAutomationAgent.execute_actions`
    (lines 130-131): `for key, val in data.items(): value =
    value.replace(f"$\x7b\x7bkey\x7d\x7d", val)`, the bindings dict embedded
    as an insertion-ordered association list. -/
def resolveValue (value : String) (data : List (String × String)) : String :=
  data.foldl
    (fun v kv => String.mk (pyReplace v.data ("$\x7b" ++ kv.1 ++ "\x7d").data kv.2.data))
    value



/-- Observable effects of one send operation: calls into the Playwright page
    and browser (the external collaborator) and the logger calls the claims
    reference.  `logFailedAction a` stands for
    `logger.error(f"Failed to execute action: \x7baction\x7d, error: ...")`,
    which prints the whole action dict, description included. -/
inductive Event where
  | goto : String → Event
  | getContent : Event
  | click : String → Event
  | fill : String → String → Event
  | waitMs : Nat → Event
  | logInfo : String → Event
  | logFailedAction : Action → Event
  | logSendFailed : Event
  | closeBrowser : Event
  | stopPlaywright : Event
deriving DecidableEq

/-- Whether an action makes the executor invoke a page operation:
    a `click`, or a `fill` whose `"value"` key is present (a `fill` without
    it raises `KeyError` before reaching the page). -/
def attemptsPageOp (a : Action) : Bool :=
  a.action == "click" || (a.action == "fill" && a.value.isSome)

/-- One iteration of the `for action in actions` loop of
    `WebAutomationAgent.execute_actions` (lines 117-138).  `failsHere` is the
    verdict of the page oracle for this step: whether the underlying page
    operation (`page.click` / `page.fill`) raises.  The `except` branch logs
    the action and falls through; on success the loop waits 1000 ms. -/
def execStep (failsHere : Bool) (data : List (String × String)) (a : Action) :
    List Event :=
  Event.logInfo ("Executing: " ++ a.description) ::
    (if a.action = "click" then
      Event.click a.selector ::
        (if failsHere then [Event.logFailedAction a] else [Event.waitMs 1000])
    else if a.action = "fill" then
      match a.value with
      | some v =>
        Event.fill a.selector (resolveValue v data) ::
          (if failsHere then [Event.logFailedAction a] else [Event.waitMs 1000])
      | none => [Event.logFailedAction a]
    else [Event.waitMs 1000])

/-- The executor loop, carrying the index used to query the page oracle. -/
def execActions (fails : Nat → Bool) (data : List (String × String)) :
    Nat → List Action → List Event
  | _, [] => []
  | i, a :: rest => execStep (fails i) data a ++ execActions fails data (i + 1) rest

/-- Embeds `WebAutomationAgent.execute_actions` from `src/main.py` (lines 115-138),
    as the trace of events it produces against a page oracle `fails` telling
    whose page operations raise at each step index. -/
def execute_actions (fails : Nat → Bool) (actions : List Action)
    (data : List (String × String)) : List Event :=
  execActions fails data 0 actions

/-- Dispatches to the page (click / fill calls), as opposed to waits and logs. -/
def isDispatch : Event → Bool
  | Event.click _ => true
  | Event.fill _ _ => true
  | _ => false

/-- Environment oracle for one send: which external page operations raise.
    `parse_email_instruction` and `analyze_ui_and_generate_actions` are pure
    in the source and cannot raise; the fallible steps are the Playwright
    calls (`page.goto`, the settle waits, `page.content()`, and the per-action
    `page.click` / `page.fill` queried through `actionFails`).  The teardown
    calls in the `finally` block are timers and handle release, modelled as
    non-raising. -/
structure Env where
  gotoFails : String → Bool
  navWaitFails : Bool
  authWaitFails : Bool
  contentFails : Bool
  contentHtml : String
  actionFails : Nat → Bool

/-- Service URLs from `WebAutomationAgent.navigate_to_service` (lines 97-107). -/
def serviceUrl : EmailService → String
  | EmailService.GMAIL => "https://mail.google.com"
  | EmailService.OUTLOOK => "https://outlook.live.com"

/-- Value attribute of the Python enum (`service.value`). -/
def serviceValue : EmailService → String
  | EmailService.GMAIL => "gmail"
  | EmailService.OUTLOOK => "outlook"

/-- Embeds `WebAutomationAgent.navigate_to_service` (lines 97-107): `page.goto(url)`
    then a 3000 ms settle wait.  Returns the emitted events and whether the
    step raised. -/
def navigate_to_service (env : Env) (service : EmailService) : List Event × Bool :=
  let url := serviceUrl service
  if env.gotoFails url then ([Event.goto url], true)
  else ([Event.goto url, Event.waitMs 3000], env.navWaitFails)

/-- Embeds `WebAutomationAgent.mock_authentication` (lines 109-113): a 2000 ms wait. -/
def mock_authentication (env : Env) : List Event × Bool :=
  ([Event.waitMs 2000], env.authWaitFails)

/-- The `try` block of `WebAutomationAgent.send_email` (lines 142-171):
    parse, navigate, authenticate, capture markup, plan, execute.  Returns
    the emitted events and whether an exception escaped the block. -/
def tryBody (env : Env) (instruction : String) : List Event × Bool :=
  let email := parse_email_instruction instruction
  let nav := navigate_to_service env email.service
  if nav.2 then (nav.1, true)
  else
    let auth := mock_authentication env
    if auth.2 then (nav.1 ++ auth.1, true)
    else if env.contentFails then (nav.1 ++ auth.1 ++ [Event.getContent], true)
    else
      let actions := analyze_ui_and_generate_actions env.contentHtml
        ("Send email using " ++ serviceValue email.service)
      let data := [("recipient", email.recipient), ("subject", email.subject),
        ("body", email.body)]
      let tr := execute_actions env.actionFails actions data
      (nav.1 ++ auth.1 ++ [Event.getContent] ++ tr ++
        [Event.logInfo "Email sent successfully!"], false)

/-- Embeds `WebAutomationAgent.send_email` (lines 140-179): the `try` body, an
    `except` clause logging any escaped exception, and a `finally` block that
    waits 3000 ms, closes the browser and stops Playwright.  The second
    component records whether `send_email` itself raises to its caller. -/
def send_email (env : Env) (instruction : String) : List Event × Bool :=
  let body := tryBody env instruction
  let handled := if body.2 then body.1 ++ [Event.logSendFailed] else body.1
  (handled ++ [Event.waitMs 3000, Event.closeBrowser, Event.stopPlaywright], false)

/-- Result record of the API surface. -/
structure ApiResult where
  status : String
  message : String
deriving DecidableEq

/-- Embeds `AutomationAPI.send_email_endpoint` (lines 187-193): calls
    `agent.send_email` and reports `success` unless that call itself raised. -/
def send_email_endpoint (env : Env) (instruction : String) : ApiResult :=
  if (send_email env instruction).2 then
    { status := "error", message := "exception from send_email" }
  else
    { status := "success", message := "Email sent successfully" }

/- ------------------------------------------------------------------ -/
/- Supporting lemmas on the embedded Python string primitives.         -/
/- ------------------------------------------------------------------ -/

theorem isPrefixOf_self (l : List Char) : l.isPrefixOf l = true := by
  induction l with
  | nil => rfl
  | cons c cs ih => simp [List.isPrefixOf, ih]

theorem replaceFuel_nil (pat rep : List Char) (f : Nat) :
    replaceFuel pat rep f [] = [] := by
  cases f <;> rfl

theorem replaceFuel_of_not_contains (pat rep : List Char) :
    ∀ (f : Nat) (s : List Char), containsSub pat s = false →
      replaceFuel pat rep f s = s := by
  intro f
  induction f with
  | zero => intro s _; rfl
  | succ f ih =>
    intro s h
    cases s with
    | nil => rfl
    | cons c cs =>
      simp only [containsSub, Bool.or_eq_false_iff] at h
      simp [replaceFuel, h.1, ih cs h.2]

theorem pyReplace_of_not_contains (s pat rep : List Char)
    (h : containsSub pat s = false) : pyReplace s pat rep = s :=
  replaceFuel_of_not_contains pat rep s.length s h

theorem pyReplace_self (c : Char) (cs rep : List Char) :
    pyReplace (c :: cs) (c :: cs) rep = rep := by
  show replaceFuel (c :: cs) rep (c :: cs).length (c :: cs) = rep
  rw [List.length_cons]
  simp [replaceFuel, isPrefixOf_self, replaceFuel_nil, List.drop_length]

theorem pySplitFuel_ne_nil (sep : List Char) (f : Nat) (s : List Char) :
    pySplitFuel sep f s ≠ [] := by
  match f, s with
  | 0, s => simp [pySplitFuel]
  | f + 1, [] => simp [pySplitFuel]
  | f + 1, c :: cs =>
    simp only [pySplitFuel]
    split
    · simp
    · split <;> simp

theorem isEmpty_false_of_ne_nil {sep : List Char} (h : sep ≠ []) :
    sep.isEmpty = false := by
  cases sep with
  | nil => exact absurd rfl h
  | cons c cs => rfl

theorem pySplitFuel_length_of_contains (sep : List Char) (hsep : sep ≠ []) :
    ∀ (f : Nat) (s : List Char), s.length ≤ f → containsSub sep s = true →
      2 ≤ (pySplitFuel sep f s).length := by
  intro f
  induction f with
  | zero =>
    intro s hle hc
    have hs : s = [] := List.length_eq_zero.mp (Nat.le_zero.mp hle)
    subst hs
    simp only [containsSub] at hc
    exact absurd hc (by simp [isEmpty_false_of_ne_nil hsep])
  | succ f ih =>
    intro s hle hc
    cases s with
    | nil =>
      simp only [containsSub] at hc
      exact absurd hc (by simp [isEmpty_false_of_ne_nil hsep])
    | cons c cs =>
      simp only [containsSub, Bool.or_eq_true] at hc
      by_cases hp : sep.isPrefixOf (c :: cs) = true
      · have : pySplitFuel sep (f + 1) (c :: cs) =
            [] :: pySplitFuel sep f ((c :: cs).drop sep.length) := by
          simp [pySplitFuel, hp, isEmpty_false_of_ne_nil hsep]
        rw [this]
        have hne := pySplitFuel_ne_nil sep f ((c :: cs).drop sep.length)
        have := List.length_pos.mpr hne
        simp only [List.length_cons]
        omega
      · have hc2 : containsSub sep cs = true := by
          rcases hc with h1 | h2
          · exact absurd h1 hp
          · exact h2
        have hlen : cs.length ≤ f := by
          simp only [List.length_cons] at hle
          omega
        have h2 := ih cs hlen hc2
        obtain ⟨t, ts, hts⟩ := List.exists_cons_of_ne_nil (pySplitFuel_ne_nil sep f cs)
        have : pySplitFuel sep (f + 1) (c :: cs) = (c :: t) :: ts := by
          simp only [pySplitFuel, hp, Bool.false_and, if_neg Bool.false_ne_true, hts]
        rw [this]
        rw [hts] at h2
        simp only [List.length_cons] at h2 ⊢
        omega

theorem pySplitFuel_chars (sep : List Char) :
    ∀ (f : Nat) (s t : List Char), t ∈ pySplitFuel sep f s → ∀ c ∈ t, c ∈ s := by
  intro f
  induction f with
  | zero =>
    intro s t ht c hc
    simp only [pySplitFuel, List.mem_singleton] at ht
    subst ht
    exact hc
  | succ f ih =>
    intro s t ht c hc
    cases s with
    | nil =>
      simp only [pySplitFuel, List.mem_singleton] at ht
      subst ht
      simp at hc
    | cons a as =>
      simp only [pySplitFuel] at ht
      split at ht
      · rcases List.mem_cons.mp ht with h1 | h2
        · subst h1; simp at hc
        · exact List.drop_subset _ _ (ih _ t h2 c hc)
      · cases hsplit : pySplitFuel sep f as with
        | nil => exact absurd hsplit (pySplitFuel_ne_nil sep f as)
        | cons u us =>
          rw [hsplit] at ht
          rcases List.mem_cons.mp ht with h1 | h2
          · subst h1
            rcases List.mem_cons.mp hc with h3 | h4
            · simp [h3]
            · have : u ∈ pySplitFuel sep f as := by
                rw [hsplit]; exact List.mem_cons_self u us
              exact List.mem_cons_of_mem a (ih as u this c h4)
          · have : t ∈ pySplitFuel sep f as := by
              rw [hsplit]; exact List.mem_cons_of_mem u h2
            exact List.mem_cons_of_mem a (ih as t this c hc)

theorem char_toNat_ofNat (n : Nat) (h : n < 55296) : (Char.ofNat n).toNat = n := by
  have hv : n.isValidChar := Or.inl h
  rw [Char.ofNat, dif_pos hv]
  rfl

theorem char_toLower_toLower (c : Char) :
    Char.toLower (Char.toLower c) = Char.toLower c := by
  simp only [Char.toLower]
  by_cases h : c.toNat ≥ 65 ∧ c.toNat ≤ 90
  · rw [if_pos h]
    have h1 : (Char.ofNat (c.toNat + 32)).toNat = c.toNat + 32 :=
      char_toNat_ofNat _ (by omega)
    rw [if_neg (by rw [h1]; omega)]
  · rw [if_neg h, if_neg h]

theorem pyLower_fixed : ∀ s : List Char,
    (∀ c ∈ s, Char.toLower c = c) → pyLower s = s
  | [], _ => rfl
  | c :: cs, h => by
    have h1 : Char.toLower c = c := h c (List.mem_cons_self c cs)
    have h2 : pyLower cs = cs :=
      pyLower_fixed cs (fun d hd => h d (List.mem_cons_of_mem c hd))
    simp only [pyLower, List.map_cons] at h2 ⊢
    rw [h1, h2]

theorem mem_pyLower_fixed (s : List Char) (c : Char) (hc : c ∈ pyLower s) :
    Char.toLower c = c := by
  simp only [pyLower, List.mem_map] at hc
  obtain ⟨d, _, rfl⟩ := hc
  exact char_toLower_toLower d

/- ------------------------------------------------------------------ -/
/- Executor lemmas.                                                    -/
/- ------------------------------------------------------------------ -/

theorem execStep_filter_dispatch (b : Bool) (data : List (String × String))
    (a : Agent.Action) :
    (execStep b data a).filter isDispatch = (execStep false data a).filter isDispatch := by
  cases b
  · rfl
  · unfold execStep
    split_ifs <;> cases hv : a.value <;> simp [isDispatch, hv, List.filter]

theorem execActions_filter_dispatch (fails : Nat → Bool)
    (data : List (String × String)) :
    ∀ (l : List Agent.Action) (i : Nat),
      (execActions fails data i l).filter isDispatch =
        (execActions (fun _ => false) data i l).filter isDispatch := by
  intro l
  induction l with
  | nil => intro i; rfl
  | cons a rest ih =>
    intro i
    simp only [execActions, List.filter_append]
    rw [execStep_filter_dispatch (fails i) data a, ih (i + 1)]

theorem execStep_logFailed (data : List (String × String)) (a : Agent.Action)
    (ha : attemptsPageOp a = true) :
    Event.logFailedAction a ∈ execStep true data a := by
  by_cases hclick : a.action = "click"
  · simp [execStep, hclick]
  · have hfill : a.action = "fill" ∧ a.value.isSome = true := by
      simp [attemptsPageOp, hclick] at ha
      exact ha
    obtain ⟨v, hv⟩ := Option.isSome_iff_exists.mp hfill.2
    simp [execStep, hclick, hfill.1, hv]

theorem execActions_logFailed (fails : Nat → Bool) (data : List (String × String)) :
    ∀ (l : List Agent.Action) (i0 j : Nat) (h : j < l.length),
      fails (i0 + j) = true → attemptsPageOp (l.get ⟨j, h⟩) = true →
      Event.logFailedAction (l.get ⟨j, h⟩) ∈ execActions fails data i0 l := by
  intro l
  induction l with
  | nil => intro i0 j h; exact absurd h (by simp)
  | cons a rest ih =>
    intro i0 j h hf ha
    cases j with
    | zero =>
      simp only [List.get] at ha ⊢
      simp only [execActions, List.mem_append]
      left
      rw [Nat.add_zero] at hf
      rw [hf]
      exact execStep_logFailed data a ha
    | succ j2 =>
      simp only [List.get] at ha ⊢
      simp only [execActions, List.mem_append]
      right
      have harith : i0 + (j2 + 1) = (i0 + 1) + j2 := by omega
      rw [harith] at hf
      exact ih (i0 + 1) j2 (Nat.lt_of_succ_lt_succ h) hf ha

/-- C1: for every action list and bindings, a failure of the page operation
    underlying one action is caught and logged together with the action (the
    source logs the whole action dict, description included), and every other
    action is still dispatched to the page in order: the dispatch trace under
    any failure oracle equals the dispatch trace of a failure-free run. -/
theorem executor_fault_isolation (fails : Nat → Bool) (actions : List Agent.Action)
    (data : List (String × String)) :
    (execute_actions fails actions data).filter isDispatch =
      (execute_actions (fun _ => false) actions data).filter isDispatch ∧
    ∀ (i : Nat) (h : i < actions.length), fails i = true →
      attemptsPageOp (actions.get ⟨i, h⟩) = true →
      Event.logFailedAction (actions.get ⟨i, h⟩) ∈ execute_actions fails actions data := by
  constructor
  · exact execActions_filter_dispatch fails data actions 0
  · intro i h hf ha
    have hzero : (0 : Nat) + i = i := Nat.zero_add i
    exact execActions_logFailed fails data actions 0 i h (by rw [hzero]; exact hf) ha

/-- Oracle making exactly the third action page operation raise. -/
def failsThird : Nat → Bool := fun i => i == 2

/-- The bindings `send_email` builds, at sample values. -/
def sampleBindings : List (String × String) :=
  [("recipient", "r@x.com"), ("subject", "Subject"), ("body", "Body")]

/-- Witness for C1: on the 5-action Gmail plan with the 3rd action failing,
    the failure is logged and the dispatch sequence (actions 4 and 5
    included) is that of the failure-free run. -/
theorem executor_fault_isolation_witness :
    ((execute_actions failsThird gmailActions sampleBindings).filter isDispatch =
      (execute_actions (fun _ => false) gmailActions sampleBindings).filter isDispatch) ∧
    Event.logFailedAction (gmailActions.get ⟨2, by decide⟩) ∈
      execute_actions failsThird gmailActions sampleBindings :=
  ⟨(executor_fault_isolation failsThird gmailActions sampleBindings).1,
   (executor_fault_isolation failsThird gmailActions sampleBindings).2 2 (by decide)
     (by decide) (by decide)⟩

/- ------------------------------------------------------------------ -/
/- Orchestrator lemmas.                                                -/
/- ------------------------------------------------------------------ -/

theorem execStep_no_close_stop (b : Bool) (data : List (String × String))
    (a : Agent.Action) (e : Event) (he : e ∈ execStep b data a) :
    e ≠ Event.closeBrowser ∧ e ≠ Event.stopPlaywright := by
  unfold execStep at he
  constructor <;> rintro rfl <;> split_ifs at he <;> cases hv : a.value <;>
    simp [hv] at he

theorem execActions_no_close_stop (fails : Nat → Bool)
    (data : List (String × String)) :
    ∀ (l : List Agent.Action) (i : Nat),
      Event.closeBrowser ∉ execActions fails data i l ∧
      Event.stopPlaywright ∉ execActions fails data i l := by
  intro l
  induction l with
  | nil => intro i; constructor <;> simp [execActions]
  | cons a rest ih =>
    intro i
    constructor <;>
      · intro hmem
        simp only [execActions, List.mem_append] at hmem
        rcases hmem with h | h
        · first
          | exact (execStep_no_close_stop (fails i) data a _ h).1 rfl
          | exact (execStep_no_close_stop (fails i) data a _ h).2 rfl
        · first
          | exact (ih (i + 1)).1 h
          | exact (ih (i + 1)).2 h

theorem tryBody_no_close_stop (env : Env) (instr : String) :
    Event.closeBrowser ∉ (tryBody env instr).1 ∧
    Event.stopPlaywright ∉ (tryBody env instr).1 := by
  have hex := execActions_no_close_stop env.actionFails
    [("recipient", (parse_email_instruction instr).recipient),
     ("subject", (parse_email_instruction instr).subject),
     ("body", (parse_email_instruction instr).body)]
    (analyze_ui_and_generate_actions env.contentHtml
      ("Send email using " ++ serviceValue (parse_email_instruction instr).service)) 0
  unfold tryBody navigate_to_service mock_authentication
  cases hg : env.gotoFails (serviceUrl (parse_email_instruction instr).service) <;>
    cases hn : env.navWaitFails <;>
    cases ha : env.authWaitFails <;>
    cases hc : env.contentFails <;>
    simp_all [execute_actions]

theorem send_email_not_raises (env : Env) (instr : String) :
    (send_email env instr).2 = false := rfl

/-- C2: for every environment (hence whichever pipeline step raises, if any)
    and every instruction, the trace of one send contains exactly one
    `browser.close()` and exactly one `playwright.stop()`: the browser/session
    resource is released exactly once per send, on every exit path. -/
theorem send_email_releases_once (env : Env) (instr : String) :
    ((send_email env instr).1.count Event.closeBrowser) = 1 ∧
    ((send_email env instr).1.count Event.stopPlaywright) = 1 := by
  have h := tryBody_no_close_stop env instr
  unfold send_email
  cases hb : (tryBody env instr).2 <;>
    simp [hb, List.count_append, List.count_eq_zero.mpr h.1,
      List.count_eq_zero.mpr h.2, List.count_cons, List.count_nil]

/-- C3: every exception raised inside the pipeline steps (modelled by the
    environment oracle deciding which page operations raise) is caught at
    `send_email` level and logged, and `send_email` never propagates an
    exception to its caller. -/
theorem send_email_catches_pipeline_exceptions (env : Env) (instr : String) :
    (send_email env instr).2 = false ∧
    ((tryBody env instr).2 = true →
      Event.logSendFailed ∈ (send_email env instr).1) := by
  refine ⟨send_email_not_raises env instr, ?_⟩
  intro hr
  unfold send_email
  simp [hr]

/-- Environment in which `page.goto` raises (navigation failure) and no other
    page operation does. -/
def envGotoFail : Env :=
  { gotoFails := fun _ => true, navWaitFails := false, authWaitFails := false,
    contentFails := false, contentHtml := "", actionFails := fun _ => false }

/-- Witness for C3: with a failing navigation, the pipeline raises, the send
    logs the failure and does not propagate. -/
theorem send_email_catches_witness :
    (send_email envGotoFail "do it").2 = false ∧
    Event.logSendFailed ∈ (send_email envGotoFail "do it").1 :=
  ⟨(send_email_catches_pipeline_exceptions envGotoFail "do it").1,
   (send_email_catches_pipeline_exceptions envGotoFail "do it").2 (by decide)⟩

/-- C4 counterexample: with a failing navigation (a pipeline failure), the
    endpoint still reports status `success`, because `send_email` swallows
    the exception; the claim that status is `error` whenever a pipeline
    failure occurred is false on the code. -/
theorem endpoint_status_counterexample :
    (tryBody envGotoFail "send it").2 = true ∧
    (send_email_endpoint envGotoFail "send it").status = "success" ∧
    (send_email_endpoint envGotoFail "send it").status ≠ "error" :=
  ⟨by decide, by decide, by decide⟩

/-- C4 (amended): `send_email_endpoint` always returns status `success` with
    message `Email sent successfully`, pipeline failure or not, because
    `send_email` catches every pipeline exception internally and never raises
    to the endpoint; the endpoint error branch would be reached only if
    `send_email` itself raised, which pipeline failures never cause. -/
theorem endpoint_always_success (env : Env) (instr : String) :
    send_email_endpoint env instr =
      { status := "success", message := "Email sent successfully" } := by
  unfold send_email_endpoint
  rw [send_email_not_raises env instr]
  simp

/- ------------------------------------------------------------------ -/
/- Substitution, planner and scenario claims.                          -/
/- ------------------------------------------------------------------ -/

/-- C5: the executor resolves a fill value by replacing every occurrence of
    the pattern built from each bound key, leaves text in which a bound
    pattern does not occur (in particular any placeholder with an unbound
    name) verbatim without error, and on the claim example inputs resolves
    exactly as stated. -/
theorem executor_substitution :
    resolveValue "${recipient}" [("recipient", "r@x.com")] = "r@x.com" ∧
    resolveValue "${missing}" [("recipient", "r@x.com")] = "${missing}" ∧
    (∀ (v key val : String),
      containsSub ("$\x7b" ++ key ++ "\x7d").data v.data = false →
      resolveValue v [(key, val)] = v) ∧
    (∀ (key val : String),
      resolveValue ("$\x7b" ++ key ++ "\x7d") [(key, val)] = val) := by
  refine ⟨by decide, by decide, ?_, ?_⟩
  · intro v key val h
    obtain ⟨lv⟩ := v
    exact congrArg String.mk
      (pyReplace_of_not_contains lv (("$\x7b" ++ key ++ "\x7d").data) val.data h)
  · intro key val
    obtain ⟨lk⟩ := key
    obtain ⟨lv⟩ := val
    show String.mk
        (pyReplace ('$' :: '\x7b' :: (lk ++ ['\x7d']))
          ('$' :: '\x7b' :: (lk ++ ['\x7d'])) lv) = String.mk lv
    rw [pyReplace_self]

/-- Witness for C5: the unbound-pattern clause at a concrete value whose text
    does not contain the bound key pattern, and the bound-key clause at a
    concrete key and value. -/
theorem executor_substitution_witness :
    resolveValue "hello $\x7bx\x7d" [("recipient", "r@x.com")] =
      "hello $\x7bx\x7d" ∧
    resolveValue ("$\x7b" ++ "k" ++ "\x7d") [("k", "v")] = "v" :=
  ⟨executor_substitution.2.2.1 "hello $\x7bx\x7d" "recipient" "r@x.com" (by decide),
   executor_substitution.2.2.2 "k" "v"⟩

/-- C9: substitution is sequential over the bindings list, so a binding value
    containing the pattern of a key processed later is itself rewritten: the
    filled text carries the later binding value, not the literal placeholder. -/
theorem executor_substitution_sequential :
    execute_actions (fun _ => false)
      [{ action := "fill", selector := "input", value := some "${recipient}",
         description := "Fill recipient field" }]
      [("recipient", "see $\x7bsubject\x7d"), ("subject", "Plans")] =
      [Event.logInfo "Executing: Fill recipient field",
       Event.fill "input" "see Plans", Event.waitMs 1000] := by
  decide

/-- C8: the planner output is a fixed 5-action sequence determined by the
    goal alone: it is independent of the markup, and equals the Gmail
    sequence exactly when the lowercased goal contains `gmail`, the Outlook
    sequence otherwise. -/
theorem planner_pure_in_markup (html1 html2 goal : String) :
    analyze_ui_and_generate_actions html1 goal =
      analyze_ui_and_generate_actions html2 goal ∧
    (analyze_ui_and_generate_actions html1 goal).length = 5 ∧
    analyze_ui_and_generate_actions html1 goal =
      (if containsSub ("gmail".data) (pyLower goal.data) then gmailActions
       else outlookActions) := by
  refine ⟨rfl, ?_, rfl⟩
  unfold analyze_ui_and_generate_actions
  split <;> decide

/-- The end-to-end scenario instruction of the spec. -/
def scenarioInstruction : String :=
  "Send an email to a@b.com about the meeting using Gmail"

/-- C6 counterexample: parsing the scenario instruction does not give subject
    `The meeting`; the source takes everything after `about ` up to the next
    `.` and capitalizes it, yielding `The meeting using gmail`. -/
theorem scenario_subject_counterexample :
    (parse_email_instruction scenarioInstruction).subject ≠ "The meeting" := by
  decide

/-- Environment in which every page operation succeeds. -/
def envOk : Env :=
  { gotoFails := fun _ => false, navWaitFails := false, authWaitFails := false,
    contentFails := false, contentHtml := "<html></html>",
    actionFails := fun _ => false }

/-- C6 (amended): the scenario instruction parses to recipient `a@b.com`,
    subject `The meeting using gmail`, the default body and the Gmail
    service; the planner then produces the fixed 5-action Gmail sequence for
    that service goal, and a full send reaches teardown releasing the
    browser resource exactly once. -/
theorem scenario_end_to_end :
    parse_email_instruction scenarioInstruction =
      { recipient := "a@b.com", subject := "The meeting using gmail",
        body := defaultBody, service := EmailService.GMAIL } ∧
    analyze_ui_and_generate_actions envOk.contentHtml "Send email using gmail" =
      gmailActions ∧
    gmailActions.length = 5 ∧
    ((send_email envOk scenarioInstruction).1.count Event.closeBrowser) = 1 ∧
    ((send_email envOk scenarioInstruction).1.count Event.stopPlaywright) = 1 :=
  ⟨by decide, by decide, by decide, by decide, by decide⟩

/- ------------------------------------------------------------------ -/
/- Parser recipient claims.                                            -/
/- ------------------------------------------------------------------ -/

theorem getD_mem_or_default {α : Type} : ∀ (l : List α) (i : Nat) (d : α),
    l.getD i d = d ∨ l.getD i d ∈ l
  | [], _, _ => Or.inl rfl
  | a :: as, 0, _ => Or.inr (List.mem_cons_self a as)
  | a :: as, i + 1, d => by
    rcases getD_mem_or_default as i d with h | h
    · exact Or.inl (by simpa using h)
    · exact Or.inr (List.mem_cons_of_mem a (by simpa using h))

theorem pySplit_headD_chars (sep s : List Char) (c : Char)
    (hc : c ∈ (pySplit sep s).headD []) : c ∈ s := by
  obtain ⟨t, ts, hts⟩ := List.exists_cons_of_ne_nil (pySplitFuel_ne_nil sep s.length s)
  have hts2 : pySplit sep s = t :: ts := hts
  rw [hts2, List.headD_cons] at hc
  refine pySplitFuel_chars sep s.length s t ?_ c hc
  rw [show pySplitFuel sep s.length s = t :: ts from hts]
  exact List.mem_cons_self t ts

theorem pySplit_getD_chars (sep s : List Char) (i : Nat) (c : Char)
    (hc : c ∈ (pySplit sep s).getD i []) : c ∈ s := by
  rcases getD_mem_or_default (pySplit sep s) i [] with h | h
  · rw [h] at hc
    exact absurd hc (List.not_mem_nil c)
  · exact pySplitFuel_chars sep s.length s _ h c hc

theorem pySplit_length_of_contains (sep s : List Char) (hsep : sep ≠ [])
    (h : containsSub sep s = true) : 1 < (pySplit sep s).length :=
  pySplitFuel_length_of_contains sep hsep s.length s (Nat.le_refl _) h

theorem parsedRecipient_lower_fixed (lower : List Char)
    (hfix : ∀ c ∈ lower, Char.toLower c = c) :
    pyLowerStr (parsedRecipient lower) = parsedRecipient lower := by
  by_cases h1 : containsSub ("to ".data) lower = true
  · by_cases h2 : 1 < (pySplit ("to ".data) lower).length
    · by_cases h3 : containsSub ("@".data)
          ((pySplit (" ".data) ((pySplit ("to ".data) lower).getD 1 [])).headD [])
          = true
      · have hred : parsedRecipient lower =
            String.mk
              ((pySplit (" ".data) ((pySplit ("to ".data) lower).getD 1 [])).headD
                []) := by
          simp only [parsedRecipient]
          rw [if_pos h1, if_pos h2, if_pos h3]
        rw [hred]
        exact congrArg String.mk (pyLower_fixed _ (fun c hc =>
          hfix c (pySplit_getD_chars ("to ".data) lower 1 c
            (pySplit_headD_chars (" ".data) _ c hc))))
      · have hred : parsedRecipient lower = defaultRecipient := by
          simp only [parsedRecipient]
          rw [if_pos h1, if_pos h2, if_neg h3]
        rw [hred]
        decide
    · have hred : parsedRecipient lower = defaultRecipient := by
        simp only [parsedRecipient]
        rw [if_pos h1, if_neg h2]
      rw [hred]
      decide
  · have hred : parsedRecipient lower = defaultRecipient := by
      simp only [parsedRecipient]
      rw [if_neg h1]
    rw [hred]
    decide

/-- C10: the Parser extracts the recipient from the lowercased copy of the
    instruction, so the parsed recipient is always lowercasing-invariant
    (entirely lowercase); on the mixed-case example the original spelling is
    lost. -/
theorem parser_recipient_lowercase :
    (∀ s : String,
      pyLowerStr ((parse_email_instruction s).recipient) =
        (parse_email_instruction s).recipient) ∧
    (parse_email_instruction "Send an email to John@Example.com now").recipient =
      "john@example.com" := by
  constructor
  · intro s
    exact parsedRecipient_lower_fixed (pyLower s.data) (mem_pyLower_fixed s.data)
  · decide

/-- The text after the first occurrence of `pat`, or `[]` when absent. -/
def afterFirst (pat : List Char) : List Char → List Char
  | [] => []
  | c :: cs =>
    if pat.isPrefixOf (c :: cs) then (c :: cs).drop pat.length
    else afterFirst pat cs

/-- Modelled from the claim wording of C7: the whitespace-delimited token
    immediately following the first occurrence of `"to "` in the lowercased
    instruction (all characters after that occurrence up to the next
    whitespace character). -/
def tokenFollowingTo (s : String) : String :=
  String.mk ((afterFirst ("to ".data) (pyLower s.data)).takeWhile
    (fun c => !c.isWhitespace))

/-- C7 counterexample: in `mail to x@yto z` the token immediately following
    the first `to ` is `x@yto`, which contains `@`, yet the parsed recipient
    is `x@y`: `split("to ")[1]` additionally truncates the token at the next
    occurrence of `to `, so the claim as stated is false at this input. -/
theorem parser_recipient_counterexample :
    containsSub ("to ".data) (pyLower "mail to x@yto z".data) = true ∧
    tokenFollowingTo "mail to x@yto z" = "x@yto" ∧
    containsSub ("@".data) (tokenFollowingTo "mail to x@yto z").data = true ∧
    (parse_email_instruction "mail to x@yto z").recipient = "x@y" ∧
    (parse_email_instruction "mail to x@yto z").recipient ≠ "x@yto" :=
  ⟨by decide, by decide, by decide, by decide, by decide⟩

/-- The Parser recipient contract as amended for C7: the candidate token is
    `lower.split("to ")[1].split(" ")[0]` — the text between the first and
    second occurrences of `"to "`, cut at the next space — and it is the
    recipient exactly when it contains `"@"`; otherwise the recipient is the
    fixed default address. -/
def recipientSpec (s : String) : String :=
  let lower := pyLower s.data
  if containsSub ("to ".data) lower then
    let tok := (pySplit (" ".data) ((pySplit ("to ".data) lower).getD 1 [])).headD []
    if containsSub ("@".data) tok then String.mk tok else "test@example.com"
  else "test@example.com"

/-- C7 (amended): the Parser never fails, and for every instruction the
    parsed recipient is `recipientSpec`: the split-derived candidate token
    when the lowercased instruction contains `"to "` and the token contains
    `"@"`, and the fixed default `test@example.com` otherwise (in particular
    the inner `len(parts) > 1` guard of the source is always satisfied when
    `"to "` occurs). -/
theorem parser_recipient_contract (s : String) :
    (parse_email_instruction s).recipient = recipientSpec s := by
  show parsedRecipient (pyLower s.data) = recipientSpec s
  unfold recipientSpec
  by_cases h1 : containsSub ("to ".data) (pyLower s.data) = true
  · have h2 : 1 < (pySplit ("to ".data) (pyLower s.data)).length :=
      pySplit_length_of_contains _ _ (by decide) h1
    simp [parsedRecipient, h1, h2, defaultRecipient]
  · simp [parsedRecipient, h1, defaultRecipient]

/-- Witness for C7 (amended) at a concrete instruction with a well-formed
    recipient. -/
theorem parser_recipient_contract_witness :
    (parse_email_instruction "write to bob@host.com now").recipient =
      recipientSpec "write to bob@host.com now" :=
  parser_recipient_contract "write to bob@host.com now"

end Agent
